import Mathlib

/-!
Verification of the COFF/PE codec in `src/main.rs` (Noratrieb/winning).

The embedding models byte buffers as `List Nat` (each element a byte value),
machine integers as `Nat` with explicit `% 2 ^ w` where the source performs
wrapping 32-bit arithmetic, and fallible Rust operations as `Except ProcErr`.
Field-by-field sequential reads mirror binrw's derived `BinRead`, which reads
each struct field in declaration order from the stream.
-/

set_option autoImplicit false

set_option maxRecDepth 16384

namespace Winning

/-- Error kinds of the decoder, as named by the specification.
`truncated` models binrw end-of-stream read failures, `invalidText` models
`Utf8Error`/`FromUtf8Error`, and the two `unsupported*` variants model the
two `bail!` calls in `process_object`. -/
inductive ProcErr where
  | truncated
  | invalidText
  | unsupportedMachine
  | unsupportedOptionalHeader
deriving DecidableEq

/-- Little-endian value of a byte list (each byte taken mod 256);
models `u32::from_le_bytes` and friends. -/
def leVal : List Nat → Nat
  | [] => 0
  | b :: l => b % 256 + 256 * leVal l

/-- Little-endian encoding of `v` into `w` bytes; models the byte layout
binrw's `BinWrite` produces for a `w`-byte unsigned integer. -/
def leBytes : Nat → Nat → List Nat
  | 0, _ => []
  | w + 1, v => v % 256 :: leBytes w (v / 256)

/-- Read a `w`-byte little-endian unsigned integer from the head of the
stream, failing with `truncated` on end of stream (binrw integer read). -/
def rdLE : Nat → List Nat → Except ProcErr (Nat × List Nat)
  | 0, l => .ok (0, l)
  | _ + 1, [] => .error .truncated
  | w + 1, b :: l =>
    match rdLE w l with
    | .ok (v, rest) => .ok (b % 256 + 256 * v, rest)
    | .error e => .error e

/-- Read `n` raw bytes from the head of the stream (binrw `[u8; n]` read). -/
def rdBytes (n : Nat) (l : List Nat) : Except ProcErr (List Nat × List Nat) :=
  if n ≤ l.length then .ok (l.take n, l.drop n) else .error .truncated

/-- Is `b` a UTF-8 continuation byte (`0x80 ..= 0xBF`)? -/
def utf8Cont (b : Nat) : Bool := 0x80 ≤ b && b ≤ 0xBF

/-- UTF-8 validity of a byte list, following the checks performed by
`std::str::from_utf8`: rejects overlong encodings, surrogates and code
points above U+10FFFF. -/
def utf8Valid : List Nat → Bool
  | [] => true
  | b :: l =>
    if b ≤ 0x7F then utf8Valid l
    else if b < 0xC2 then false
    else if b ≤ 0xDF then
      match l with
      | c :: l2 => utf8Cont c && utf8Valid l2
      | [] => false
    else if b ≤ 0xEF then
      match l with
      | c :: d :: l2 =>
        (if b = 0xE0 then decide (0xA0 ≤ c) && decide (c ≤ 0xBF)
         else if b = 0xED then decide (0x80 ≤ c) && decide (c ≤ 0x9F)
         else utf8Cont c) && utf8Cont d && utf8Valid l2
      | _ => false
    else if b ≤ 0xF4 then
      match l with
      | c :: d :: e :: l2 =>
        (if b = 0xF0 then decide (0x90 ≤ c) && decide (c ≤ 0xBF)
         else if b = 0xF4 then decide (0x80 ≤ c) && decide (c ≤ 0x8F)
         else utf8Cont c) && utf8Cont d && utf8Cont e && utf8Valid l2
      | _ => false
    else false

/-- `parse_section_header_name` (main.rs:404-408): take the bytes before the
first zero byte — with `.unwrap_or(7)` when no zero byte occurs — and
validate them as UTF-8.  Strings are modelled by their byte lists. -/
def parse_section_header_name (name : List Nat) : Except ProcErr (List Nat) :=
  let e := (name.findIdx? (fun d => d == 0)).getD 7
  let slice := name.take e
  if utf8Valid slice then .ok slice else .error .invalidText

/-- `encode_section_header_name` (main.rs:410-414): zero array, copy the
name bytes into its front.  The Rust slice `bytes[..name.len()]` panics when
the name exceeds 8 bytes; the panic is modelled as `none`. -/
def encode_section_header_name (name : List Nat) : Option (List Nat) :=
  if name.length ≤ 8 then some (name ++ List.replicate (8 - name.length) 0)
  else none

/-- `SymbolNameRepr` (main.rs:236-239). -/
inductive SymbolNameRepr where
  | Short (name : List Nat)
  | Long (offset : Nat)
deriving DecidableEq

/-- `SymbolName::repr` (main.rs:241-253): if the first 4 bytes are all zero,
the last 4 bytes are a little-endian `u32` offset into the string table;
otherwise the 8 bytes are parsed like a section header name. -/
def SymbolName.repr (bytes : List Nat) : Except ProcErr SymbolNameRepr :=
  if (bytes.take 4).all (fun v => v == 0) then
    .ok (.Long (leVal ((bytes.drop 4).take 4)))
  else
    match parse_section_header_name bytes with
    | .ok n => .ok (.Short n)
    | .error e => .error e

/-- `CoffHeader` (main.rs:16-30).  The `characteristics` bitset is carried as
its raw 16-bit word: `Characteristics::from_bits_retain` keeps every bit and
`.bits()` returns them, so the binrw maps are the identity on the word. -/
structure CoffHeader where
  machine : Nat
  number_of_sections : Nat
  time_date_stamp : Nat
  pointer_to_symbol_table : Nat
  number_of_symbols : Nat
  size_of_optional_header : Nat
  characteristics : Nat
deriving DecidableEq

/-- Sequential binrw decode of `CoffHeader` (derived `BinRead`, little
endian, field order of main.rs:20-29). -/
def decodeCoffHeaderS (l : List Nat) : Except ProcErr (CoffHeader × List Nat) :=
  match rdLE 2 l with
  | .error e => .error e
  | .ok (machine, l) =>
  match rdLE 2 l with
  | .error e => .error e
  | .ok (number_of_sections, l) =>
  match rdLE 4 l with
  | .error e => .error e
  | .ok (time_date_stamp, l) =>
  match rdLE 4 l with
  | .error e => .error e
  | .ok (pointer_to_symbol_table, l) =>
  match rdLE 4 l with
  | .error e => .error e
  | .ok (number_of_symbols, l) =>
  match rdLE 2 l with
  | .error e => .error e
  | .ok (size_of_optional_header, l) =>
  match rdLE 2 l with
  | .error e => .error e
  | .ok (characteristics, l) =>
    .ok ({ machine := machine, number_of_sections := number_of_sections,
           time_date_stamp := time_date_stamp,
           pointer_to_symbol_table := pointer_to_symbol_table,
           number_of_symbols := number_of_symbols,
           size_of_optional_header := size_of_optional_header,
           characteristics := characteristics }, l)

/-- Sequential binrw encode of `CoffHeader` (derived `BinWrite`, little
endian, 20 bytes). -/
def encodeCoffHeader (h : CoffHeader) : List Nat :=
  leBytes 2 h.machine ++ leBytes 2 h.number_of_sections ++
  leBytes 4 h.time_date_stamp ++ leBytes 4 h.pointer_to_symbol_table ++
  leBytes 4 h.number_of_symbols ++ leBytes 2 h.size_of_optional_header ++
  leBytes 2 h.characteristics

/-- `SectionHeader` (main.rs:194-213); `characteristics` is the raw 32-bit
`SectionFlags` word (`from_bits_retain` is the identity on it). -/
structure SectionHeader where
  name : List Nat
  virtual_size : Nat
  virtual_address : Nat
  size_of_raw_data : Nat
  pointer_to_raw_data : Nat
  pointer_to_relocations : Nat
  pointer_to_linenumbers : Nat
  number_of_relocations : Nat
  number_of_linenumbers : Nat
  characteristics : Nat
deriving DecidableEq

/-- Sequential binrw decode of `SectionHeader` (40 bytes); the name field
goes through `parse_section_header_name` via `try_map`, whose failure is a
decode error (`invalidText`). -/
def decodeSectionHeaderS (l : List Nat) : Except ProcErr (SectionHeader × List Nat) :=
  match rdBytes 8 l with
  | .error e => .error e
  | .ok (raw, l) =>
  match parse_section_header_name raw with
  | .error e => .error e
  | .ok (name) =>
  match rdLE 4 l with
  | .error e => .error e
  | .ok (virtual_size, l) =>
  match rdLE 4 l with
  | .error e => .error e
  | .ok (virtual_address, l) =>
  match rdLE 4 l with
  | .error e => .error e
  | .ok (size_of_raw_data, l) =>
  match rdLE 4 l with
  | .error e => .error e
  | .ok (pointer_to_raw_data, l) =>
  match rdLE 4 l with
  | .error e => .error e
  | .ok (pointer_to_relocations, l) =>
  match rdLE 4 l with
  | .error e => .error e
  | .ok (pointer_to_linenumbers, l) =>
  match rdLE 2 l with
  | .error e => .error e
  | .ok (number_of_relocations, l) =>
  match rdLE 2 l with
  | .error e => .error e
  | .ok (number_of_linenumbers, l) =>
  match rdLE 4 l with
  | .error e => .error e
  | .ok (characteristics, l) =>
    .ok ({ name := name, virtual_size := virtual_size,
           virtual_address := virtual_address,
           size_of_raw_data := size_of_raw_data,
           pointer_to_raw_data := pointer_to_raw_data,
           pointer_to_relocations := pointer_to_relocations,
           pointer_to_linenumbers := pointer_to_linenumbers,
           number_of_relocations := number_of_relocations,
           number_of_linenumbers := number_of_linenumbers,
           characteristics := characteristics }, l)

/-- The section-table loop (main.rs:360-367): read `n` consecutive 40-byte
section records.  The `set_position(after_section_pos)` in the source
restores the cursor to the position right after the record just read, which
is where sequential reading already leaves it. -/
def readSections (l : List Nat) : Nat → Except ProcErr (List SectionHeader × List Nat)
  | 0 => .ok ([], l)
  | n + 1 =>
    match decodeSectionHeaderS l with
    | .error e => .error e
    | .ok (s, l2) =>
      match readSections l2 n with
      | .error e => .error e
      | .ok (rest, l3) => .ok (s :: rest, l3)

/-- `SymbolTableEntry` (main.rs:217-227); `name` holds the raw 8 bytes of
the `SymbolName` field, `typ` models the `r#type` field. -/
structure SymbolTableEntry where
  name : List Nat
  value : Nat
  section_number : Nat
  typ : Nat
  storage_class : Nat
  number_of_aux_symbols : Nat
deriving DecidableEq

/-- Sequential binrw decode of a `SymbolTableEntry` (18 bytes). -/
def decodeSymbolEntryS (l : List Nat) : Except ProcErr (SymbolTableEntry × List Nat) :=
  match rdBytes 8 l with
  | .error e => .error e
  | .ok (raw, l) =>
  match rdLE 4 l with
  | .error e => .error e
  | .ok (value, l) =>
  match rdLE 2 l with
  | .error e => .error e
  | .ok (section_number, l) =>
  match rdLE 2 l with
  | .error e => .error e
  | .ok (typ, l) =>
  match rdLE 1 l with
  | .error e => .error e
  | .ok (storage_class, l) =>
  match rdLE 1 l with
  | .error e => .error e
  | .ok (number_of_aux_symbols, l) =>
    .ok ({ name := raw, value := value, section_number := section_number,
           typ := typ, storage_class := storage_class,
           number_of_aux_symbols := number_of_aux_symbols }, l)

/-- `binrw::NullString::read` at absolute position `pos`: the bytes up to
(excluding) the first zero byte; end of stream before a zero byte is a read
failure. -/
def readNullString (buf : List Nat) (pos : Nat) : Except ProcErr (List Nat) :=
  match (buf.drop pos).findIdx? (fun b => b == 0) with
  | some i => .ok ((buf.drop pos).take i)
  | none => .error .truncated

/-- One observable line of the symbol-table walk: the `AUX` trace
(main.rs:377) or the primary-symbol trace with its resolved name
(main.rs:394). -/
inductive SymEvent where
  | aux (e : SymbolTableEntry)
  | primary (name : List Nat) (e : SymbolTableEntry)
deriving DecidableEq

/-- The loop-local state of the symbol-table walk: the cursor position and
the `remaining_aux` counter (main.rs:369-370). -/
structure SymState where
  pos : Nat
  remainingAux : Nat
deriving DecidableEq

/-- One iteration of the symbol-table loop (main.rs:371-397): read the
18-byte entry at the cursor; if `remaining_aux > 0` treat it as opaque
auxiliary data (decrement, no name resolution); otherwise set
`remaining_aux` from the entry and resolve its name, seeking to
`string_table_start + offset` (wrapping 32-bit addition) for a `Long` name
and validating the fetched string as UTF-8.  In every branch the cursor for
the next iteration is the position right after the 18-byte entry. -/
def symStep (buf : List Nat) (stbase : Nat) (s : SymState) :
    Except ProcErr (SymEvent × SymState) :=
  match decodeSymbolEntryS (buf.drop s.pos) with
  | .error e => .error e
  | .ok (sym, _) =>
    if 0 < s.remainingAux then
      .ok (.aux sym, { pos := s.pos + 18, remainingAux := s.remainingAux - 1 })
    else
      match SymbolName.repr sym.name with
      | .error e => .error e
      | .ok (.Short name) =>
        .ok (.primary name sym,
             { pos := s.pos + 18, remainingAux := sym.number_of_aux_symbols })
      | .ok (.Long offset) =>
        match readNullString buf ((stbase + offset) % 2 ^ 32) with
        | .error e => .error e
        | .ok raw =>
          if utf8Valid raw then
            .ok (.primary raw sym,
                 { pos := s.pos + 18, remainingAux := sym.number_of_aux_symbols })
          else .error .invalidText

/-- The symbol-table walk: `number_of_symbols` iterations of `symStep`. -/
def symWalk (buf : List Nat) (stbase : Nat) :
    Nat → SymState → Except ProcErr (List SymEvent × SymState)
  | 0, s => .ok ([], s)
  | n + 1, s =>
    match symStep buf stbase s with
    | .error e => .error e
    | .ok (ev, s2) =>
      match symWalk buf stbase n s2 with
      | .error e => .error e
      | .ok (evs, s3) => .ok (ev :: evs, s3)

/-- `DataDirectory` (main.rs:107-113). -/
structure DataDirectory where
  virtual_address : Nat
  size : Nat
deriving DecidableEq

/-- `DataDirectory::default()`: both fields zero. -/
def DataDirectory.default : DataDirectory := { virtual_address := 0, size := 0 }

/-- binrw encode of a `DataDirectory`: two little-endian `u32`s. -/
def encodeDataDirectory (d : DataDirectory) : List Nat :=
  leBytes 4 d.virtual_address ++ leBytes 4 d.size

/-- `OptionalHeader` (main.rs:54-105), encode-only in the source. -/
structure OptionalHeader where
  major_linker_version : Nat
  minor_linker_version : Nat
  size_of_code : Nat
  size_of_initialized_data : Nat
  size_of_uninitialized_data : Nat
  address_of_entry_point : Nat
  base_of_code : Nat
  image_base : Nat
  section_alignment : Nat
  file_alignment : Nat
  major_operating_system_version : Nat
  minor_operating_system_version : Nat
  major_image_version : Nat
  minor_image_version : Nat
  major_subsystem_version : Nat
  minor_subsystem_version : Nat
  win32_version_value : Nat
  size_of_image : Nat
  size_of_headers : Nat
  check_sum : Nat
  subsystem : Nat
  dll_characteristics : Nat
  size_of_stack_reserve : Nat
  size_of_stack_commit : Nat
  size_of_heap_reserve : Nat
  sizeof_heap_commit : Nat
  loader_flags : Nat
  number_of_rva_and_sizes : Nat
  export_table : DataDirectory
  import_table : DataDirectory
  resource_table : DataDirectory
  exception_table : DataDirectory
  certificate_table : DataDirectory
  base_relocation_table : DataDirectory
  debug : DataDirectory
  architecture : DataDirectory
  global_ptr : DataDirectory
  tls_table : DataDirectory
  load_config_table : DataDirectory
  bound_import : DataDirectory
  iat : DataDirectory
  delay_import_descriptor : DataDirectory
  clr_runtime_header : DataDirectory
  reservedDir : DataDirectory
deriving DecidableEq

/-- binrw encode of `OptionalHeader`: the 2-byte PE32+ magic
`b"\x0b\x02"` (the `#[bw(magic = ...)]` attribute on main.rs:56), then every
field little endian in declaration order. -/
def encodeOptionalHeader (h : OptionalHeader) : List Nat :=
  [0x0b, 0x02] ++
  leBytes 1 h.major_linker_version ++ leBytes 1 h.minor_linker_version ++
  leBytes 4 h.size_of_code ++ leBytes 4 h.size_of_initialized_data ++
  leBytes 4 h.size_of_uninitialized_data ++ leBytes 4 h.address_of_entry_point ++
  leBytes 4 h.base_of_code ++ leBytes 8 h.image_base ++
  leBytes 4 h.section_alignment ++ leBytes 4 h.file_alignment ++
  leBytes 2 h.major_operating_system_version ++
  leBytes 2 h.minor_operating_system_version ++
  leBytes 2 h.major_image_version ++ leBytes 2 h.minor_image_version ++
  leBytes 2 h.major_subsystem_version ++ leBytes 2 h.minor_subsystem_version ++
  leBytes 4 h.win32_version_value ++ leBytes 4 h.size_of_image ++
  leBytes 4 h.size_of_headers ++ leBytes 4 h.check_sum ++
  leBytes 2 h.subsystem ++ leBytes 2 h.dll_characteristics ++
  leBytes 8 h.size_of_stack_reserve ++ leBytes 8 h.size_of_stack_commit ++
  leBytes 8 h.size_of_heap_reserve ++ leBytes 8 h.sizeof_heap_commit ++
  leBytes 4 h.loader_flags ++ leBytes 4 h.number_of_rva_and_sizes ++
  encodeDataDirectory h.export_table ++ encodeDataDirectory h.import_table ++
  encodeDataDirectory h.resource_table ++ encodeDataDirectory h.exception_table ++
  encodeDataDirectory h.certificate_table ++
  encodeDataDirectory h.base_relocation_table ++
  encodeDataDirectory h.debug ++ encodeDataDirectory h.architecture ++
  encodeDataDirectory h.global_ptr ++ encodeDataDirectory h.tls_table ++
  encodeDataDirectory h.load_config_table ++ encodeDataDirectory h.bound_import ++
  encodeDataDirectory h.iat ++ encodeDataDirectory h.delay_import_descriptor ++
  encodeDataDirectory h.clr_runtime_header ++ encodeDataDirectory h.reservedDir

/-- `IMAGE_FILE_MACHINE_AMD64` (main.rs:215). -/
def IMAGE_FILE_MACHINE_AMD64 : Nat := 0x8664

/-- `IMAGE_SUBSYSTEM_WINDOWS_CUI` (main.rs:192). -/
def IMAGE_SUBSYSTEM_WINDOWS_CUI : Nat := 3

/-- The `CoffHeader` literal written to the output (main.rs:298-307).
`size_of_optional_header` is `size_of::<OptionalHeader>()`, which for the
`repr(C)` struct is 240 (2 padding bytes after the two linker-version `u8`s
plus 238 field bytes). `Characteristics::IMAGE_FILE_EXECUTABLE_IMAGE` is
the word `0x0002`. -/
def outCoffHeader : CoffHeader :=
  { machine := IMAGE_FILE_MACHINE_AMD64, number_of_sections := 0,
    time_date_stamp := 0, pointer_to_symbol_table := 0, number_of_symbols := 0,
    size_of_optional_header := 240, characteristics := 0x0002 }

/-- The `OptionalHeader` literal written to the output (main.rs:309-355). -/
def outOptionalHeader : OptionalHeader :=
  { major_linker_version := 1, minor_linker_version := 1,
    size_of_code := 0, size_of_initialized_data := 0,
    size_of_uninitialized_data := 0, address_of_entry_point := 0,
    base_of_code := 0, image_base := 0,
    section_alignment := 8, file_alignment := 8,
    major_operating_system_version := 1, minor_operating_system_version := 1,
    major_image_version := 1, minor_image_version := 1,
    major_subsystem_version := 1, minor_subsystem_version := 1,
    win32_version_value := 0, size_of_image := 0, size_of_headers := 0,
    check_sum := 0, subsystem := IMAGE_SUBSYSTEM_WINDOWS_CUI,
    dll_characteristics := 0,
    size_of_stack_reserve := 2 ^ 20, size_of_stack_commit := 2 ^ 10,
    size_of_heap_reserve := 0, sizeof_heap_commit := 0,
    loader_flags := 0, number_of_rva_and_sizes := 16,
    export_table := DataDirectory.default, import_table := DataDirectory.default,
    resource_table := DataDirectory.default,
    exception_table := DataDirectory.default,
    certificate_table := DataDirectory.default,
    base_relocation_table := DataDirectory.default,
    debug := DataDirectory.default, architecture := DataDirectory.default,
    global_ptr := DataDirectory.default, tls_table := DataDirectory.default,
    load_config_table := DataDirectory.default,
    bound_import := DataDirectory.default, iat := DataDirectory.default,
    delay_import_descriptor := DataDirectory.default,
    clr_runtime_header := DataDirectory.default,
    reservedDir := DataDirectory.default }

/-- The complete byte content written to `out.exe` on success
(main.rs:296-355, 399): the embedded MS-DOS stub, the fresh `CoffHeader`,
and the `OptionalHeader` with its magic.  The stub (`msdos-stub.bin`, an
opaque embedded blob not present in the sources) is a parameter. -/
def OUT_IMAGE (stub : List Nat) : List Nat :=
  stub ++ encodeCoffHeader outCoffHeader ++ encodeOptionalHeader outOptionalHeader

/-- The observable result of one `process_object` run on success: the
decoded file header, the derived string-table base, the decoded section
headers, the symbol-walk trace, and the walk's final loop state. -/
structure DecodeTrace where
  header : CoffHeader
  stringTableBase : Nat
  sections : List SectionHeader
  symEvents : List SymEvent
  finalAux : Nat
  finalPos : Nat
deriving DecidableEq

/-- `process_object` (main.rs:278-402) on a byte buffer `file`, with the
embedded MS-DOS stub as a parameter: decode the file header from position
0; derive `string_table_start = pointer_to_symbol_table +
number_of_symbols * 18` (wrapping `u32` arithmetic) before any validation
or symbol read; bail on a non-AMD64 machine and then on a nonzero optional
header size; build the constant output image; walk the section table from
position `size_of::<CoffHeader>() = 20`; walk the symbol table from
`pointer_to_symbol_table` with `remaining_aux = 0`.  The output bytes are
written to `out.exe` only when every step succeeded, so the model returns
them only in the `.ok` case. -/
def processObject (stub file : List Nat) :
    Except ProcErr (List Nat × DecodeTrace) :=
  match decodeCoffHeaderS file with
  | .error e => .error e
  | .ok (header, _) =>
    let string_table_start :=
      (header.pointer_to_symbol_table + header.number_of_symbols * 18) % 2 ^ 32
    if header.machine ≠ IMAGE_FILE_MACHINE_AMD64 then .error .unsupportedMachine
    else if 0 < header.size_of_optional_header then
      .error .unsupportedOptionalHeader
    else
      match readSections (file.drop 20) header.number_of_sections with
      | .error e => .error e
      | .ok (sections, _) =>
        match symWalk file string_table_start header.number_of_symbols
            { pos := header.pointer_to_symbol_table, remainingAux := 0 } with
        | .error e => .error e
        | .ok (events, sfin) =>
          .ok (OUT_IMAGE stub,
               { header := header, stringTableBase := string_table_start,
                 sections := sections, symEvents := events,
                 finalAux := sfin.remainingAux, finalPos := sfin.pos })

/-- A minimal accepted input object: machine `0x8664`, all other header
fields zero (no sections, no symbols, no optional header). -/
def minimalObj : List Nat :=
  [0x64, 0x86, 0, 0, 0, 0, 0, 0, 0, 0, 0, 0, 0, 0, 0, 0, 0, 0, 0, 0]

/-- `minimalObj` with `time_date_stamp = 1`: a second, distinct accepted
input. -/
def minimalObj2 : List Nat :=
  [0x64, 0x86, 0, 0, 1, 0, 0, 0, 0, 0, 0, 0, 0, 0, 0, 0, 0, 0, 0, 0]

/-- The decoded header of `minimalObj`. -/
def minimalHeader : CoffHeader :=
  { machine := 0x8664, number_of_sections := 0, time_date_stamp := 0,
    pointer_to_symbol_table := 0, number_of_symbols := 0,
    size_of_optional_header := 0, characteristics := 0 }

/-- The decoded header of `minimalObj2`. -/
def minimalHeader2 : CoffHeader :=
  { machine := 0x8664, number_of_sections := 0, time_date_stamp := 1,
    pointer_to_symbol_table := 0, number_of_symbols := 0,
    size_of_optional_header := 0, characteristics := 0 }

/-- The decode trace of `minimalObj`. -/
def minimalTrace : DecodeTrace :=
  { header := minimalHeader, stringTableBase := 0, sections := [],
    symEvents := [], finalAux := 0, finalPos := 0 }

/-- The decode trace of `minimalObj2`. -/
def minimalTrace2 : DecodeTrace :=
  { header := minimalHeader2, stringTableBase := 0, sections := [],
    symEvents := [], finalAux := 0, finalPos := 0 }

/-- An accepted object with one symbol whose name is `Long` with offset 0:
symbol table at offset 20, one 18-byte entry whose name field is all zero,
followed by the string table holding `"hi\x00"`. -/
def longFile : List Nat :=
  [0x64, 0x86, 0, 0, 0, 0, 0, 0, 20, 0, 0, 0, 1, 0, 0, 0, 0, 0, 0, 0] ++
  [0, 0, 0, 0, 0, 0, 0, 0, 0, 0, 0, 0, 0, 0, 0, 0, 0, 0] ++
  [104, 105, 0]

/-- The single symbol entry of `longFile`. -/
def longEntry : SymbolTableEntry :=
  { name := [0, 0, 0, 0, 0, 0, 0, 0], value := 0, section_number := 0,
    typ := 0, storage_class := 0, number_of_aux_symbols := 0 }

/-- The decoded header of `longFile`. -/
def longHeader : CoffHeader :=
  { machine := 0x8664, number_of_sections := 0, time_date_stamp := 0,
    pointer_to_symbol_table := 20, number_of_symbols := 1,
    size_of_optional_header := 0, characteristics := 0 }

/-- The decode trace of `longFile`: one primary symbol named `"hi"`
resolved at string-table base 20 + 1 * 18 = 38. -/
def longTrace : DecodeTrace :=
  { header := longHeader, stringTableBase := 38, sections := [],
    symEvents := [.primary [104, 105] longEntry], finalAux := 0,
    finalPos := 38 }

/-- An accepted object whose single symbol table entry is a primary symbol
with the short name `"a"` declaring `number_of_aux_symbols = 2`, with no
further entries: the table ends mid-auxiliary-run. -/
def auxFile : List Nat :=
  [0x64, 0x86, 0, 0, 0, 0, 0, 0, 20, 0, 0, 0, 1, 0, 0, 0, 0, 0, 0, 0] ++
  [97, 0, 0, 0, 0, 0, 0, 0, 0, 0, 0, 0, 0, 0, 0, 0, 0, 2]

/-- The single symbol entry of `auxFile`. -/
def auxEntry : SymbolTableEntry :=
  { name := [97, 0, 0, 0, 0, 0, 0, 0], value := 0, section_number := 0,
    typ := 0, storage_class := 0, number_of_aux_symbols := 2 }

/-- The decoded header of `auxFile`. -/
def auxHeader : CoffHeader :=
  { machine := 0x8664, number_of_sections := 0, time_date_stamp := 0,
    pointer_to_symbol_table := 20, number_of_symbols := 1,
    size_of_optional_header := 0, characteristics := 0 }

/-- The decode trace of `auxFile`: the walk succeeds after its single
iteration even though the entry declared 2 auxiliary records, leaving
`remaining_aux = 2`. -/
def auxTrace : DecodeTrace :=
  { header := auxHeader, stringTableBase := 38, sections := [],
    symEvents := [.primary [97] auxEntry], finalAux := 2, finalPos := 38 }

/-- An input whose machine code is `0x014c` (i386) and whose
`size_of_optional_header` is 1: both structural validations are violated. -/
def cex6File : List Nat :=
  [0x4c, 0x01, 0, 0, 0, 0, 0, 0, 0, 0, 0, 0, 0, 0, 0, 0, 1, 0, 0, 0]

/-- The decoded header of `cex6File`. -/
def cex6Header : CoffHeader :=
  { machine := 0x014c, number_of_sections := 0, time_date_stamp := 0,
    pointer_to_symbol_table := 0, number_of_symbols := 0,
    size_of_optional_header := 1, characteristics := 0 }

/-- An input with the accepted machine code but a nonzero
`size_of_optional_header`. -/
def optFile : List Nat :=
  [0x64, 0x86, 0, 0, 0, 0, 0, 0, 0, 0, 0, 0, 0, 0, 0, 0, 1, 0, 0, 0]

/-- The decoded header of `optFile`. -/
def optHeader : CoffHeader :=
  { machine := 0x8664, number_of_sections := 0, time_date_stamp := 0,
    pointer_to_symbol_table := 0, number_of_symbols := 0,
    size_of_optional_header := 1, characteristics := 0 }

end Winning

deriving instance DecidableEq for Except

namespace Winning

theorem leBytes_length (w v : Nat) : (leBytes w v).length = w := by
  induction w generalizing v with
  | zero => rfl
  | succ w ih => simp [leBytes, ih]

theorem rdLE_leBytes (w v : Nat) (hv : v < 256 ^ w) (rest : List Nat) :
    rdLE w (leBytes w v ++ rest) = .ok (v, rest) := by
  induction w generalizing v with
  | zero =>
    have hz : v = 0 := by simpa [Nat.lt_one_iff] using hv
    subst hz
    rfl
  | succ w ih =>
    have h2 : v / 256 < 256 ^ w := by
      rw [Nat.div_lt_iff_lt_mul (by norm_num)]
      calc v < 256 ^ (w + 1) := hv
        _ = 256 ^ w * 256 := by ring
    simp only [leBytes, List.cons_append, rdLE, List.append_eq, ih (v / 256) h2]
    rw [show v % 256 % 256 + 256 * (v / 256) = v from by omega]

theorem rdLE_truncated :
    ∀ (w : Nat) (l : List Nat), l.length < w → rdLE w l = .error .truncated
  | 0, _, h => absurd h (by simp)
  | _ + 1, [], _ => rfl
  | w + 1, b :: l, h => by
    have hl : l.length < w := by simpa using h
    simp [rdLE, rdLE_truncated w l hl]

theorem rdLE_ok :
    ∀ (w : Nat) (l : List Nat), w ≤ l.length →
      rdLE w l = .ok (leVal (l.take w), l.drop w)
  | 0, l, _ => by simp [rdLE, leVal]
  | w + 1, [], h => absurd h (by simp)
  | w + 1, b :: l, h => by
    have hl : w ≤ l.length := by simpa using h
    simp [rdLE, rdLE_ok w l hl, leVal]

/-- C1.  The fixed-name codec does NOT round-trip at exactly 8 bytes: the
name `"ABCDEFGH"` encodes to the full 8-byte field, but decoding that field
returns only the first 7 bytes `"ABCDEFG"` — `parse_section_header_name`
falls back to index 7, not 8, when no zero byte is present, silently
dropping the last byte of an 8-byte name. -/
theorem fixed_name_8byte_truncation :
    encode_section_header_name [65, 66, 67, 68, 69, 70, 71, 72] =
      some [65, 66, 67, 68, 69, 70, 71, 72] ∧
    parse_section_header_name [65, 66, 67, 68, 69, 70, 71, 72] =
      .ok [65, 66, 67, 68, 69, 70, 71] ∧
    [65, 66, 67, 68, 69, 70, 71] ≠ [65, 66, 67, 68, 69, 70, 71, 72] := by
  decide

/-- C2.  For every raw 8-byte name field: if the first 4 bytes are all
zero, `SymbolName::repr` returns `Long` with the little-endian `u32` value
of the last 4 bytes (for every suffix, including all-zero, giving offset
0); otherwise it returns exactly the result of decoding the field as a
section-header short name, wrapped in `Short`. -/
theorem symbol_name_discriminant (b : List Nat) (hb : b.length = 8) :
    ((b.take 4).all (fun v => v == 0) = true →
      SymbolName.repr b = .ok (.Long (leVal ((b.drop 4).take 4)))) ∧
    ((b.take 4).all (fun v => v == 0) = false →
      SymbolName.repr b = Except.map .Short (parse_section_header_name b)) := by
  constructor
  · intro h
    simp [SymbolName.repr, h]
  · intro h
    cases hp : parse_section_header_name b <;>
      simp [SymbolName.repr, h, hp, Except.map]

/-- Witness for C2: the all-zero field resolves to `Long 0`, and a field
with a nonzero first byte resolves through the short-name codec. -/
theorem symbol_name_discriminant_witness :
    SymbolName.repr [0, 0, 0, 0, 0, 0, 0, 0] =
      .ok (.Long (leVal (([0, 0, 0, 0, 0, 0, 0, 0].drop 4).take 4))) ∧
    SymbolName.repr [97, 0, 0, 0, 0, 0, 0, 0] =
      Except.map .Short (parse_section_header_name [97, 0, 0, 0, 0, 0, 0, 0]) :=
  ⟨(symbol_name_discriminant [0, 0, 0, 0, 0, 0, 0, 0] (by decide)).1 (by decide),
   (symbol_name_discriminant [97, 0, 0, 0, 0, 0, 0, 0] (by decide)).2 (by decide)⟩

/-- C8.  `CoffHeader` round-trip: encoding any header whose fields are in
range of their on-disk widths and decoding the resulting 20 bytes
reproduces every field exactly — in particular the full 16-bit
characteristics word, since `from_bits_retain` keeps bits not named by any
flag. -/
theorem coff_header_roundtrip (h : CoffHeader) (rest : List Nat)
    (h1 : h.machine < 2 ^ 16) (h2 : h.number_of_sections < 2 ^ 16)
    (h3 : h.time_date_stamp < 2 ^ 32) (h4 : h.pointer_to_symbol_table < 2 ^ 32)
    (h5 : h.number_of_symbols < 2 ^ 32) (h6 : h.size_of_optional_header < 2 ^ 16)
    (h7 : h.characteristics < 2 ^ 16) :
    decodeCoffHeaderS (encodeCoffHeader h ++ rest) = .ok (h, rest) := by
  obtain ⟨m, ns, ts, pst, nsy, soh, ch⟩ := h
  simp only [CoffHeader.machine] at h1
  simp only [CoffHeader.number_of_sections] at h2
  simp only [CoffHeader.time_date_stamp] at h3
  simp only [CoffHeader.pointer_to_symbol_table] at h4
  simp only [CoffHeader.number_of_symbols] at h5
  simp only [CoffHeader.size_of_optional_header] at h6
  simp only [CoffHeader.characteristics] at h7
  simp only [encodeCoffHeader, List.append_assoc, decodeCoffHeaderS,
    rdLE_leBytes 2 m (by norm_num at h1 ⊢; omega),
    rdLE_leBytes 2 ns (by norm_num at h2 ⊢; omega),
    rdLE_leBytes 4 ts (by norm_num at h3 ⊢; omega),
    rdLE_leBytes 4 pst (by norm_num at h4 ⊢; omega),
    rdLE_leBytes 4 nsy (by norm_num at h5 ⊢; omega),
    rdLE_leBytes 2 soh (by norm_num at h6 ⊢; omega),
    rdLE_leBytes 2 ch (by norm_num at h7 ⊢; omega)]

/-- A concrete header for the C8 witness whose characteristics word
`0x0041` sets bit 6 (`0x0040`), which is named by no `Characteristics`
flag, alongside the known bit 0. -/
def unknownBitsHeader : CoffHeader :=
  { machine := 0x8664, number_of_sections := 3, time_date_stamp := 123456789,
    pointer_to_symbol_table := 1000, number_of_symbols := 7,
    size_of_optional_header := 0, characteristics := 0x0041 }

/-- Witness for C8 at a header carrying an unknown characteristics bit. -/
theorem coff_header_roundtrip_witness :
    decodeCoffHeaderS (encodeCoffHeader unknownBitsHeader ++ []) =
      .ok (unknownBitsHeader, []) :=
  coff_header_roundtrip unknownBitsHeader [] (by decide) (by decide) (by decide)
    (by decide) (by decide) (by decide) (by decide)

/-- C9.  `encode_section_header_name` is total on names of at most 8 bytes,
returning the name left-justified with zero padding (the out-of-bounds
slice is unreachable); on a longer name the slice `bytes[..name.len()]`
panics, modelled as `none`. -/
theorem encode_name_total_of_short (name : List Nat) :
    (name.length ≤ 8 →
      encode_section_header_name name =
        some (name ++ List.replicate (8 - name.length) 0)) ∧
    (8 < name.length → encode_section_header_name name = none) := by
  constructor
  · intro h
    simp [encode_section_header_name, h]
  · intro h
    simp [encode_section_header_name]
    omega

/-- Witness for C9: the 2-byte name `".t"`-prefix bytes encode with six
zero-padding bytes, and a 9-byte name makes the encoder fail. -/
theorem encode_name_total_of_short_witness :
    encode_section_header_name [46, 116] =
      some ([46, 116] ++ List.replicate (8 - [46, 116].length) 0) ∧
    encode_section_header_name [65, 65, 65, 65, 65, 65, 65, 65, 65] = none :=
  ⟨(encode_name_total_of_short [46, 116]).1 (by decide),
   (encode_name_total_of_short [65, 65, 65, 65, 65, 65, 65, 65, 65]).2 (by decide)⟩

theorem symStep_pos {buf : List Nat} {stbase : Nat} {s : SymState}
    {ev : SymEvent} {s2 : SymState}
    (h : symStep buf stbase s = .ok (ev, s2)) : s2.pos = s.pos + 18 := by
  unfold symStep at h
  cases hdec : decodeSymbolEntryS (buf.drop s.pos) with
  | error e => rw [hdec] at h; cases h
  | ok p =>
    obtain ⟨sym, rest⟩ := p
    rw [hdec] at h
    simp only at h
    by_cases h0 : 0 < s.remainingAux
    · rw [if_pos h0] at h
      cases h
      rfl
    · rw [if_neg h0] at h
      cases hrep : SymbolName.repr sym.name with
      | error e => rw [hrep] at h; cases h
      | ok r =>
        rw [hrep] at h
        cases r with
        | Short nm => simp only at h; cases h; rfl
        | Long off =>
          simp only at h
          cases hns : readNullString buf ((stbase + off) % 2 ^ 32) with
          | error e => rw [hns] at h; cases h
          | ok raw =>
            rw [hns] at h
            simp only at h
            by_cases hu : utf8Valid raw = true
            · rw [if_pos hu] at h
              cases h
              rfl
            · rw [if_neg hu] at h
              cases h

theorem symWalk_ok {buf : List Nat} {stbase : Nat} {n : Nat} {s : SymState}
    {es : List SymEvent} {s2 : SymState}
    (h : symWalk buf stbase n s = .ok (es, s2)) :
    es.length = n ∧ s2.pos = s.pos + 18 * n := by
  induction n generalizing s es with
  | zero =>
    unfold symWalk at h
    cases h
    simp
  | succ n ih =>
    unfold symWalk at h
    split at h
    · cases h
    next ev s1 heq =>
      split at h
      · cases h
      next evs s3 heq2 =>
        cases h
        have hp := symStep_pos heq
        have h2 := ih heq2
        refine ⟨by simp [h2.1], ?_⟩
        rw [h2.2, hp]
        ring

theorem symStep_aux {buf : List Nat} {stbase : Nat} {s : SymState}
    {sym : SymbolTableEntry} {rest : List Nat}
    (hd : decodeSymbolEntryS (buf.drop s.pos) = .ok (sym, rest))
    (ha : 0 < s.remainingAux) :
    symStep buf stbase s =
      .ok (.aux sym, { pos := s.pos + 18, remainingAux := s.remainingAux - 1 }) := by
  unfold symStep
  rw [hd]
  simp [ha]

theorem symStep_short {buf : List Nat} {stbase : Nat} {s : SymState}
    {sym : SymbolTableEntry} {rest nm : List Nat}
    (hd : decodeSymbolEntryS (buf.drop s.pos) = .ok (sym, rest))
    (ha : s.remainingAux = 0)
    (hn : SymbolName.repr sym.name = .ok (.Short nm)) :
    symStep buf stbase s =
      .ok (.primary nm sym,
           { pos := s.pos + 18, remainingAux := sym.number_of_aux_symbols }) := by
  unfold symStep
  rw [hd]
  simp [ha, hn]

theorem symStep_long {buf : List Nat} {stbase : Nat} {s : SymState}
    {sym : SymbolTableEntry} {rest raw : List Nat} {off : Nat}
    (hd : decodeSymbolEntryS (buf.drop s.pos) = .ok (sym, rest))
    (ha : s.remainingAux = 0)
    (hn : SymbolName.repr sym.name = .ok (.Long off))
    (hs : readNullString buf ((stbase + off) % 2 ^ 32) = .ok raw)
    (hu : utf8Valid raw = true) :
    symStep buf stbase s =
      .ok (.primary raw sym,
           { pos := s.pos + 18, remainingAux := sym.number_of_aux_symbols }) := by
  unfold symStep
  rw [hd]
  norm_num at hs
  simp [ha, hn, hs, hu]

theorem symStep_err {buf : List Nat} {stbase : Nat} {s : SymState} {e : ProcErr}
    (hd : decodeSymbolEntryS (buf.drop s.pos) = .error e) :
    symStep buf stbase s = .error e := by
  unfold symStep
  rw [hd]


theorem decodeSymbolEntryS_truncated {l : List Nat} (h : l.length < 18) :
    decodeSymbolEntryS l = .error .truncated := by
  unfold decodeSymbolEntryS
  by_cases h8 : 8 ≤ l.length
  · simp only [rdBytes, if_pos h8]
    by_cases h4 : 4 ≤ (l.drop 8).length
    · rw [rdLE_ok 4 _ h4]
      simp only
      by_cases h2a : 2 ≤ ((l.drop 8).drop 4).length
      · rw [rdLE_ok 2 _ h2a]
        simp only
        by_cases h2b : 2 ≤ (((l.drop 8).drop 4).drop 2).length
        · rw [rdLE_ok 2 _ h2b]
          simp only
          by_cases h1a : 1 ≤ ((((l.drop 8).drop 4).drop 2).drop 2).length
          · rw [rdLE_ok 1 _ h1a]
            simp only
            rw [rdLE_truncated 1 _ (by simp; omega)]
          · rw [rdLE_truncated 1 _ (by simp at h1a ⊢; omega)]
        · rw [rdLE_truncated 2 _ (by simp at h2b ⊢; omega)]
      · rw [rdLE_truncated 2 _ (by simp at h2a ⊢; omega)]
    · rw [rdLE_truncated 4 _ (by simp at h4 ⊢; omega)]
  · simp [rdBytes, h8]

theorem processObject_ok {stub file out : List Nat} {tr : DecodeTrace}
    (h : processObject stub file = .ok (out, tr)) :
    out = OUT_IMAGE stub ∧
    (∃ rest, decodeCoffHeaderS file = .ok (tr.header, rest)) ∧
    tr.header.machine = IMAGE_FILE_MACHINE_AMD64 ∧
    tr.header.size_of_optional_header = 0 ∧
    tr.stringTableBase =
      (tr.header.pointer_to_symbol_table + tr.header.number_of_symbols * 18) % 2 ^ 32 ∧
    symWalk file tr.stringTableBase tr.header.number_of_symbols
      { pos := tr.header.pointer_to_symbol_table, remainingAux := 0 } =
      .ok (tr.symEvents, { pos := tr.finalPos, remainingAux := tr.finalAux }) := by
  unfold processObject at h
  cases hdec : decodeCoffHeaderS file with
  | error e => rw [hdec] at h; cases h
  | ok p =>
    obtain ⟨header, rest⟩ := p
    rw [hdec] at h
    simp only at h
    by_cases hm : header.machine ≠ IMAGE_FILE_MACHINE_AMD64
    · rw [if_pos hm] at h; cases h
    · rw [if_neg hm] at h
      by_cases hs : 0 < header.size_of_optional_header
      · rw [if_pos hs] at h; cases h
      · rw [if_neg hs] at h
        cases hsec : readSections (file.drop 20) header.number_of_sections with
        | error e => rw [hsec] at h; cases h
        | ok q =>
          obtain ⟨sections, rest2⟩ := q
          rw [hsec] at h
          simp only at h
          cases hsym : symWalk file
              ((header.pointer_to_symbol_table + header.number_of_symbols * 18) % 2 ^ 32)
              header.number_of_symbols
              { pos := header.pointer_to_symbol_table, remainingAux := 0 } with
          | error e => rw [hsym] at h; cases h
          | ok r =>
            obtain ⟨events, sfin⟩ := r
            rw [hsym] at h
            simp only at h
            cases h
            refine ⟨rfl, ⟨rest, rfl⟩, ?_, ?_, rfl, ?_⟩
            · show header.machine = IMAGE_FILE_MACHINE_AMD64
              exact not_not.mp hm
            · show header.size_of_optional_header = 0
              omega
            · exact hsym

/-- C3.  On every successful run, the string-table base recorded by the
walk equals `pointer_to_symbol_table + number_of_symbols * 18` in 32-bit
unsigned arithmetic — the value is computed once, before any symbol is
read, and the walk takes it as an immutable parameter — and a primary
symbol whose `Long` offset is 0 resolves its name by reading the
NUL-terminated string at exactly the string-table base. -/
theorem string_table_base_derivation (stub file out : List Nat) (tr : DecodeTrace)
    (hok : processObject stub file = .ok (out, tr)) :
    tr.stringTableBase =
      (tr.header.pointer_to_symbol_table + tr.header.number_of_symbols * 18) % 2 ^ 32 ∧
    (∀ (s : SymState) (sym : SymbolTableEntry) (rest nm : List Nat),
      decodeSymbolEntryS (file.drop s.pos) = .ok (sym, rest) →
      s.remainingAux = 0 →
      SymbolName.repr sym.name = .ok (.Long 0) →
      readNullString file tr.stringTableBase = .ok nm →
      utf8Valid nm = true →
      symStep file tr.stringTableBase s =
        .ok (.primary nm sym,
             { pos := s.pos + 18, remainingAux := sym.number_of_aux_symbols })) := by
  obtain ⟨-, -, -, -, hbase, -⟩ := processObject_ok hok
  refine ⟨hbase, ?_⟩
  intro s sym rest nm hd ha hn hs hu
  have hlt : tr.stringTableBase < 2 ^ 32 := by
    rw [hbase]
    exact Nat.mod_lt _ (by norm_num)
  have hz : (tr.stringTableBase + 0) % 2 ^ 32 = tr.stringTableBase := by omega
  exact symStep_long hd ha hn (by rw [hz]; exact hs) hu

/-- Witness for C3 at `longFile`: base 20 + 1 * 18 = 38, and the `Long 0`
symbol resolves to `"hi"` read at position 38. -/
theorem string_table_base_derivation_witness :
    processObject [] longFile = .ok (OUT_IMAGE [], longTrace) ∧
    longTrace.stringTableBase =
      (longTrace.header.pointer_to_symbol_table +
        longTrace.header.number_of_symbols * 18) % 2 ^ 32 ∧
    symStep longFile longTrace.stringTableBase { pos := 20, remainingAux := 0 } =
      .ok (.primary [104, 105] longEntry,
           { pos := 20 + 18, remainingAux := longEntry.number_of_aux_symbols }) :=
  ⟨by decide,
   (string_table_base_derivation [] longFile (OUT_IMAGE []) longTrace (by decide)).1,
   (string_table_base_derivation [] longFile (OUT_IMAGE []) longTrace (by decide)).2
     { pos := 20, remainingAux := 0 } longEntry [104, 105, 0] [104, 105]
     (by decide) rfl (by decide) (by decide) (by decide)⟩

/-- C4, counterexample to the claim as stated: `auxFile`'s symbol table has
a single entry declaring `number_of_aux_symbols = 2` and no further
entries, yet `process_object` succeeds (no `Truncated`) and the walk ends
with `remaining_aux = 2 ≠ 0`. -/
theorem aux_run_not_validated_cex :
    Except.map (fun p => ((p.2.finalAux, p.2.symEvents.length)))
        (processObject [] auxFile) = .ok (2, 1) ∧
    (2 : Nat) ≠ 0 := by decide

/-- C4, amended.  The walk never validates `remaining_aux` at the end: when
the last of the `symbol_count` entries is a primary symbol, the walk
succeeds leaving `remaining_aux` equal to whatever auxiliary count that
entry declared; `Truncated` arises only when the buffer lacks the 18 bytes
of a declared entry. -/
theorem aux_run_silent_stop (buf : List Nat) (stbase : Nat) (s : SymState)
    (sym : SymbolTableEntry) (rest nm : List Nat) (n : Nat) :
    (decodeSymbolEntryS (buf.drop s.pos) = .ok (sym, rest) →
      s.remainingAux = 0 →
      SymbolName.repr sym.name = .ok (.Short nm) →
      symWalk buf stbase 1 s =
        .ok ([.primary nm sym],
             { pos := s.pos + 18, remainingAux := sym.number_of_aux_symbols })) ∧
    (buf.length < s.pos + 18 →
      symWalk buf stbase (n + 1) s = .error .truncated) := by
  constructor
  · intro hd ha hn
    unfold symWalk
    rw [symStep_short hd ha hn]
    rfl
  · intro hlen
    have hd : decodeSymbolEntryS (buf.drop s.pos) = .error .truncated :=
      decodeSymbolEntryS_truncated (by simp; omega)
    unfold symWalk
    rw [symStep_err hd]

/-- Witness for C4's amended statement: the final `auxFile` entry declaring
2 auxiliary records ends the walk successfully with `remaining_aux = 2`,
while an empty buffer makes the walk fail with `Truncated`. -/
theorem aux_run_silent_stop_witness :
    symWalk auxFile 38 1 { pos := 20, remainingAux := 0 } =
      .ok ([.primary [97] auxEntry],
           { pos := 20 + 18, remainingAux := auxEntry.number_of_aux_symbols }) ∧
    symWalk ([] : List Nat) 0 (0 + 1) { pos := 0, remainingAux := 0 } =
      .error .truncated :=
  ⟨(aux_run_silent_stop auxFile 38 { pos := 20, remainingAux := 0 }
      auxEntry [] [97] 0).1 (by decide) rfl (by decide),
   (aux_run_silent_stop [] 0 { pos := 0, remainingAux := 0 }
      auxEntry [] [] 0).2 (by decide)⟩

/-- C5.  On every successful run the walk makes exactly
`number_of_symbols` iterations (one trace event each) ending at
`pointer_to_symbol_table + 18 * number_of_symbols`; every successful step
advances the cursor by exactly 18 bytes regardless of branch (the cursor
is restored after a `Long`-name string-table seek); and a slot read while
`remaining_aux > 0` is consumed as opaque auxiliary data — the counter is
decremented and no name resolution or string-table read is attempted,
whatever the slot's name bytes hold. -/
theorem symbol_walk_invariant (stub file out : List Nat) (tr : DecodeTrace)
    (hok : processObject stub file = .ok (out, tr)) :
    tr.symEvents.length = tr.header.number_of_symbols ∧
    tr.finalPos =
      tr.header.pointer_to_symbol_table + 18 * tr.header.number_of_symbols ∧
    (∀ (s : SymState) (ev : SymEvent) (s2 : SymState),
      symStep file tr.stringTableBase s = .ok (ev, s2) → s2.pos = s.pos + 18) ∧
    (∀ (s : SymState) (sym : SymbolTableEntry) (rest : List Nat),
      decodeSymbolEntryS (file.drop s.pos) = .ok (sym, rest) →
      0 < s.remainingAux →
      symStep file tr.stringTableBase s =
        .ok (.aux sym, { pos := s.pos + 18, remainingAux := s.remainingAux - 1 })) := by
  obtain ⟨-, -, -, -, -, hwalk⟩ := processObject_ok hok
  have hw := symWalk_ok hwalk
  exact ⟨hw.1, by simpa using hw.2,
         fun s ev s2 h => symStep_pos h,
         fun s sym rest hd ha => symStep_aux hd ha⟩

/-- Witness for C5 at `auxFile`: one iteration ending at 20 + 18 * 1, and
an aux-consuming step that succeeds without name resolution. -/
theorem symbol_walk_invariant_witness :
    processObject [] auxFile = .ok (OUT_IMAGE [], auxTrace) ∧
    auxTrace.symEvents.length = auxTrace.header.number_of_symbols ∧
    auxTrace.finalPos =
      auxTrace.header.pointer_to_symbol_table +
        18 * auxTrace.header.number_of_symbols ∧
    symStep auxFile auxTrace.stringTableBase { pos := 20, remainingAux := 1 } =
      .ok (.aux auxEntry, { pos := 20 + 18, remainingAux := 1 - 1 }) :=
  ⟨by decide,
   (symbol_walk_invariant [] auxFile (OUT_IMAGE []) auxTrace (by decide)).1,
   (symbol_walk_invariant [] auxFile (OUT_IMAGE []) auxTrace (by decide)).2.1,
   (symbol_walk_invariant [] auxFile (OUT_IMAGE []) auxTrace (by decide)).2.2.2
     { pos := 20, remainingAux := 1 } auxEntry [] (by decide) (by decide)⟩

/-- C6, counterexample to the claim as stated: `cex6File` decodes with
`size_of_optional_header = 1` (nonzero), yet processing fails with
`UnsupportedMachine`, not `UnsupportedOptionalHeader`, because its machine
code `0x014c` is checked first. -/
theorem validation_order_cex :
    Except.map (fun p => (p.1.machine, p.1.size_of_optional_header))
        (decodeCoffHeaderS cex6File) = .ok (0x014c, 1) ∧
    processObject [] cex6File = .error .unsupportedMachine ∧
    ProcErr.unsupportedMachine ≠ ProcErr.unsupportedOptionalHeader := by decide

/-- C6, amended.  Any input whose decoded machine code is not `0x8664`
fails with `UnsupportedMachine`; any input whose machine code is `0x8664`
and whose `size_of_optional_header` is nonzero fails with
`UnsupportedOptionalHeader` (the machine check is evaluated first); and an
erroring run produces no output — the output bytes exist only in the
success case, mirroring the single `fs::write` performed after all
processing succeeded. -/
theorem structural_validation_fatal (stub file : List Nat)
    (h : CoffHeader) (rest : List Nat)
    (hdec : decodeCoffHeaderS file = .ok (h, rest)) :
    (h.machine ≠ IMAGE_FILE_MACHINE_AMD64 →
      processObject stub file = .error .unsupportedMachine) ∧
    (h.machine = IMAGE_FILE_MACHINE_AMD64 → 0 < h.size_of_optional_header →
      processObject stub file = .error .unsupportedOptionalHeader) ∧
    (∀ (e : ProcErr) (res : List Nat × DecodeTrace),
      processObject stub file = .error e →
      processObject stub file ≠ .ok res) := by
  refine ⟨?_, ?_, ?_⟩
  · intro hm
    unfold processObject
    rw [hdec]
    simp [hm]
  · intro hm hs
    unfold processObject
    rw [hdec]
    simp [hm, hs]
  · intro e res he hok
    rw [he] at hok
    cases hok

/-- Witness for C6's amended statement: a `0x014c`-machine input fails with
`UnsupportedMachine`; a `0x8664` input with optional-header size 1 fails
with `UnsupportedOptionalHeader`. -/
theorem structural_validation_fatal_witness :
    processObject [] cex6File = .error .unsupportedMachine ∧
    processObject [] optFile = .error .unsupportedOptionalHeader :=
  ⟨(structural_validation_fatal [] cex6File cex6Header [] (by decide)).1 (by decide),
   (structural_validation_fatal [] optFile optHeader [] (by decide)).2.1
     (by decide) (by decide)⟩

/-- C7, counterexample to the claim as stated: the output's
`size_of_stack_commit` field (bytes 100..108 of the output with an empty
stub) holds 1024 = `1 << 10` (1 KiB), not the 4 KiB the claim states. -/
theorem stack_commit_cex :
    Except.map (fun p => (p.1.drop 100).take 8) (processObject [] minimalObj) =
      .ok (leBytes 8 1024) ∧
    outOptionalHeader.size_of_stack_commit = 1024 ∧
    leBytes 8 1024 ≠ leBytes 8 4096 ∧
    (1024 : Nat) ≠ 4096 := by decide

/-- C7, amended.  Every accepted input produces exactly the stub bytes,
then the 20-byte COFF header (machine `0x8664`, zero section and symbol
counts, optional-header size = the 240-byte length of the encoded optional
header, characteristics = the executable-image flag `0x0002` only), then
the 2-byte PE32+ magic and the optional header with all addressing/size
fields zero, stack reserve 1 MiB and stack commit 1 KiB (`1 << 10`, not
4 KiB), console subsystem (3), `number_of_rva_and_sizes = 16`, and 16
zero-filled data directories. -/
theorem output_image_layout (stub file out : List Nat) (tr : DecodeTrace)
    (hok : processObject stub file = .ok (out, tr)) :
    out = stub ++ encodeCoffHeader outCoffHeader ++
      encodeOptionalHeader outOptionalHeader ∧
    (encodeCoffHeader outCoffHeader).length = 20 ∧
    outCoffHeader.machine = 0x8664 ∧
    outCoffHeader.number_of_sections = 0 ∧
    outCoffHeader.number_of_symbols = 0 ∧
    outCoffHeader.size_of_optional_header =
      (encodeOptionalHeader outOptionalHeader).length ∧
    outCoffHeader.characteristics = 0x0002 ∧
    (encodeOptionalHeader outOptionalHeader).take 2 = [0x0b, 0x02] ∧
    outOptionalHeader.size_of_code = 0 ∧
    outOptionalHeader.size_of_initialized_data = 0 ∧
    outOptionalHeader.size_of_uninitialized_data = 0 ∧
    outOptionalHeader.address_of_entry_point = 0 ∧
    outOptionalHeader.base_of_code = 0 ∧
    outOptionalHeader.image_base = 0 ∧
    outOptionalHeader.win32_version_value = 0 ∧
    outOptionalHeader.size_of_image = 0 ∧
    outOptionalHeader.size_of_headers = 0 ∧
    outOptionalHeader.check_sum = 0 ∧
    outOptionalHeader.size_of_heap_reserve = 0 ∧
    outOptionalHeader.sizeof_heap_commit = 0 ∧
    outOptionalHeader.loader_flags = 0 ∧
    outOptionalHeader.size_of_stack_reserve = 2 ^ 20 ∧
    outOptionalHeader.size_of_stack_commit = 2 ^ 10 ∧
    outOptionalHeader.subsystem = IMAGE_SUBSYSTEM_WINDOWS_CUI ∧
    outOptionalHeader.number_of_rva_and_sizes = 16 ∧
    ([outOptionalHeader.export_table, outOptionalHeader.import_table,
      outOptionalHeader.resource_table, outOptionalHeader.exception_table,
      outOptionalHeader.certificate_table,
      outOptionalHeader.base_relocation_table, outOptionalHeader.debug,
      outOptionalHeader.architecture, outOptionalHeader.global_ptr,
      outOptionalHeader.tls_table, outOptionalHeader.load_config_table,
      outOptionalHeader.bound_import, outOptionalHeader.iat,
      outOptionalHeader.delay_import_descriptor,
      outOptionalHeader.clr_runtime_header, outOptionalHeader.reservedDir] =
      List.replicate 16 { virtual_address := 0, size := 0 }) :=
  ⟨by rw [(processObject_ok hok).1]; rfl, by decide⟩

/-- Witness for C7's amended statement at the minimal accepted object. -/
theorem output_image_layout_witness :
    processObject [] minimalObj = .ok (OUT_IMAGE [], minimalTrace) ∧
    OUT_IMAGE [] = [] ++ encodeCoffHeader outCoffHeader ++
      encodeOptionalHeader outOptionalHeader :=
  ⟨by decide,
   (output_image_layout [] minimalObj (OUT_IMAGE []) minimalTrace (by decide)).1⟩

/-- C10.  The output bytes are input-independent: any two accepted inputs
produce identical output byte sequences — the encode path assembles only
embedded constants and carries no content from the input object. -/
theorem output_input_independent (stub f1 f2 o1 o2 : List Nat)
    (t1 t2 : DecodeTrace)
    (h1 : processObject stub f1 = .ok (o1, t1))
    (h2 : processObject stub f2 = .ok (o2, t2)) :
    o1 = o2 := by
  rw [(processObject_ok h1).1, (processObject_ok h2).1]

/-- Witness for C10 at two distinct accepted inputs (differing
timestamps). -/
theorem output_input_independent_witness :
    processObject [] minimalObj = .ok (OUT_IMAGE [], minimalTrace) ∧
    processObject [] minimalObj2 = .ok (OUT_IMAGE [], minimalTrace2) ∧
    minimalObj ≠ minimalObj2 ∧
    OUT_IMAGE [] = OUT_IMAGE [] :=
  ⟨by decide, by decide, by decide,
   output_input_independent [] minimalObj minimalObj2 (OUT_IMAGE []) (OUT_IMAGE [])
     minimalTrace minimalTrace2 (by decide) (by decide)⟩

end Winning
